import Mathlib

/-!
Verification of the predicate compiler and segment-retrieval engine of the
`pnwstore_nates` repository (files `msiclient/client.py` and
`pnwstore/catalog.py`), as a shallow embedding in Lean 4.

Python strings are modelled as `List Char`; Python `obspy.UTCDateTime`
timestamps are modelled by their integer epoch value (`Int`), with
`str(timestamp)` rendered through `intToStr`.  The external collaborators
(the SQL engine, the file system plus `obspy.read` decoder, and
`obspy.Stream.write`) are passed in as explicit function parameters, as the
specification treats them as out-of-scope interfaces.
-/

/-- Python strings modelled as lists of characters. -/
abbrev Str := List Char

/-- Coerce a Lean string literal to the `List Char` model. -/
def S (s : String) : Str := s.data

/-- Rendering of an integer into the query text, the model of Python
interpolating a number (or a timestamp) into an f-string. -/
def intToStr (n : Int) : Str := (toString n).data

/-- Python `sep.join(parts)` for a list of strings. -/
def pyJoin (sep : Str) : List Str → Str
  | [] => []
  | [x] => x
  | x :: xs => x ++ sep ++ pyJoin sep xs

/-- Python `s.split(sep)` for a single-character separator: always returns a
non-empty list, `"".split(sep) = [""]`, and empty fields are kept. -/
def pySplit (sep : Char) : Str → List Str
  | [] => [[]]
  | c :: rest =>
    match pySplit sep rest with
    | [] => [[]]
    | h :: t => if c = sep then [] :: h :: t else (c :: h) :: t

/-- Python `s.replace(old, new)` for single-character `old`/`new`: replaces
each occurrence, i.e. a per-character substitution. -/
def replaceChar (old new : Char) (s : Str) : Str :=
  s.map (fun c => if c = old then new else c)

/-- `wildcard_mapper` from `msiclient/client.py` (also imported by
`pnwstore/catalog.py` from `pnwstore.utils`): `*` becomes the multi-character
pattern token `%` and `?` the single-character token `_`. -/
def wildcard_mapper (c : Str) : Str :=
  let c1 := if c.contains '*' then replaceChar '*' '%' c else c
  if c1.contains '?' then replaceChar '?' '_' c1 else c1

/-- The rendered equality comparison `f"{k} = '{v}'"`. -/
def eqCond (k v : Str) : Str := k ++ (S " = '") ++ v ++ (S "'")

/-- The rendered pattern-match comparison `f"{k} LIKE '{v}'"`. -/
def likeCond (k v : Str) : Str := k ++ (S " LIKE '") ++ v ++ (S "'")

/-- Per-element rendering inside the comma-delimited branch of
`WaveformClient.get_waveforms`: `LIKE` when the element holds a pattern
token `%`/`_`, equality otherwise. -/
def elemCond (k w : Str) : Str :=
  if w.contains '%' || w.contains '_' then likeCond k w else eqCond k w

/-- The value after the wildcard-handling step of
`WaveformClient.get_waveforms`: mapped through `wildcard_mapper` exactly when
the raw value holds `?` or `*`. -/
def mappedVal (v : Str) : Str :=
  if v.contains '?' || v.contains '*' then wildcard_mapper v else v

/-- One per-field condition `_q` of `WaveformClient.get_waveforms`: wildcard
mapping first, then the comma-delimited branch (per-element comparisons
joined with `OR` and parenthesized), then the plain `LIKE`/equality cases. -/
def fieldCond (k v : Str) : Str :=
  let hw := v.contains '?' || v.contains '*'
  let v' := if hw then wildcard_mapper v else v
  if v'.contains ',' then
    (S "(") ++ pyJoin (S " OR ") ((pySplit ',' v').map (elemCond k)) ++ (S ")")
  else if hw then likeCond k v'
  else eqCond k v'

/-- The rendered time condition `f'endtime>"{starttime}"'`. -/
def timeGtStr (t : Int) : Str := (S "endtime>\"") ++ intToStr t ++ (S "\"")

/-- The rendered time condition `f'starttime<"{endtime}"'`. -/
def timeLtStr (t : Int) : Str := (S "starttime<\"") ++ intToStr t ++ (S "\"")

/-- The rendered quality condition `f'quality = "{quality}"'`. -/
def qualCond (q : Str) : Str := (S "quality = \"") ++ q ++ (S "\"")

/-- The list `_qs` of AND-ed conditions built by
`WaveformClient.get_waveforms`: the four NSLC field conditions in order, the
two time-overlap comparisons, and the optional quality equality. -/
def gwConds (network station location channel : Str) (starttime endtime : Int)
    (quality : Option Str) : List Str :=
  [fieldCond (S "network") network, fieldCond (S "station") station,
   fieldCond (S "location") location, fieldCond (S "channel") channel]
  ++ [timeGtStr starttime, timeLtStr endtime]
  ++ (match quality with | some q => [qualCond q] | none => [])

/-- The full query string of `WaveformClient.get_waveforms`:
`'SELECT byteoffset, bytes, filename FROM tsindex WHERE '` followed by the
`' AND '.join` of the conditions. -/
def gwQueryStr (network station location channel : Str) (starttime endtime : Int)
    (quality : Option Str) : Str :=
  (S "SELECT byteoffset, bytes, filename FROM tsindex WHERE ")
    ++ pyJoin (S " AND ") (gwConds network station location channel starttime endtime quality)

example : fieldCond (S "station") (S "MBW*,JCW") =
    S "(station LIKE 'MBW%' OR station = 'JCW')" := by decide

example : fieldCond (S "channel") (S "?HZ") = S "channel LIKE '_HZ'" := by decide

example : wildcard_mapper (S "R*M?") = S "R%M_" := by decide

/-- One row of the `tsindex` segment index table, with the columns the
compiled predicate constrains and the three columns the retrieval query
selects (`byteoffset`, `bytes`, `filename`). -/
structure IndexRecord where
  network : Str
  station : Str
  location : Str
  channel : Str
  quality : Str
  starttime : Int
  endtime : Int
  byteoffset : Nat
  bytes : Nat
  filename : Str
  deriving DecidableEq

/-- A decoded segment as delivered by the external decoding collaborator
(`obspy.read`), identified by its channel tuple and time span; an
`obspy.Stream` is modelled as a `List Segment` appended in arrival order. -/
structure Segment where
  network : Str
  station : Str
  location : Str
  channel : Str
  starttime : Int
  endtime : Int
  deriving DecidableEq

/-- A request tuple `(network, station, location, channel, starttime,
endtime)`, the positional arguments of `WaveformClient.get_waveforms` and
the shape of one bulk item. -/
structure GWReq where
  network : Str
  station : Str
  location : Str
  channel : Str
  starttime : Int
  endtime : Int
  deriving DecidableEq

/-- Python exceptions raised by the embedded code. -/
inductive PyErr where
  | valueError (msg : Str)
  | typeError (msg : Str)
  | notImplementedError (msg : Str)
  | unboundLocalError
  deriving DecidableEq

/-- Observable side effects of a retrieval call, in program order: the SQL
query handed to the cursor, each file open/seek/read, the `breakpoint()`
debugger hook in the decode-failure handler, warnings, and file writes. -/
inductive Effect where
  | query (q : Str)
  | openRead (filename : Str) (byteoffset bytes : Nat)
  | breakpointHit (filename : Str) (byteoffset bytes : Nat)
  | warnFailedRequest (r : GWReq) (e : PyErr)
  | warnMsg (m : Str)
  | writeFile (fn : Str)
  deriving DecidableEq

/-- `WaveformClient.get_waveforms`, embedded with its external collaborators
as parameters: `db` is the SQL engine (query string to matching index rows),
`decode` is the file read plus `obspy.read` step keyed by locator and trim
window, `writeErr` reports whether `obspy.Stream.write` fails.  Returns the
`obspy.Stream` result (or the raised exception) together with the trace of
effects; an empty trace means no query and no file access happened.
Times are the `UTCDateTime` case of the source, so the `isinstance`
`TypeError` branches always pass; the optional `attach_response`/`inventory`
post-processing block is not modelled (it only attaches response metadata to
the already-built stream and is touched by no property here). -/
def gwRun (db : Str → List IndexRecord)
    (decode : Str → Nat → Nat → Int → Int → Except Str (List Segment))
    (writeErr : Str → Option Str) (req : GWReq) (quality : Option Str)
    (minimumlength longestonly : Option Unit) (filename : Option Str) :
    Except PyErr (List Segment) × List Effect :=
  if req.starttime > req.endtime then
    (.error (.valueError (S "starttime is after endtime")), [])
  else
    let qstr := gwQueryStr req.network req.station req.location req.channel
      req.starttime req.endtime quality
    let recs := db qstr
    let step := recs.foldl
      (fun (acc : List Segment × List Effect) r =>
        let fx := acc.2 ++ [Effect.openRead r.filename r.byteoffset r.bytes]
        match decode r.filename r.byteoffset r.bytes req.starttime req.endtime with
        | .ok segs => (acc.1 ++ segs, fx)
        | .error _ => (acc.1, fx ++ [Effect.breakpointHit r.filename r.byteoffset r.bytes]))
      ([], [Effect.query qstr])
    match minimumlength with
    | some _ => (.error (.notImplementedError (S "minimumlength placeholder - not used")), step.2)
    | none =>
      match longestonly with
      | some _ => (.error (.notImplementedError (S "longestonly placeholder - not used")), step.2)
      | none =>
        match filename with
        | none => (.ok step.1, step.2)
        | some fn =>
          match writeErr fn with
          | none => (.ok step.1, step.2 ++ [Effect.writeFile fn])
          | some m =>
            (.ok step.1,
             step.2 ++ [Effect.warnMsg ((S "Attempt to write to \"") ++ fn ++ (S "\" failed: ") ++ m)])

/-- The per-item call made inside `get_waveforms_bulk`: the bulk `filename`
keyword is popped before the loop, so each item runs with `filename = None`. -/
def gwItem (db : Str → List IndexRecord)
    (decode : Str → Nat → Nat → Int → Int → Except Str (List Segment))
    (writeErr : Str → Option Str) (quality : Option Str)
    (minimumlength longestonly : Option Unit) (req : GWReq) :
    Except PyErr (List Segment) × List Effect :=
  gwRun db decode writeErr req quality minimumlength longestonly none

/-- The sequential loop of `get_waveforms_bulk`: each item's stream is
appended on success; a failure warns naming the request and the loop
continues. -/
def bulkLoop (gw : GWReq → Except PyErr (List Segment) × List Effect) :
    List GWReq → List Segment × List Effect
  | [] => ([], [])
  | b :: rest =>
    let r := gw b
    let tl := bulkLoop gw rest
    match r.1 with
    | .ok s => (s ++ tl.1, r.2 ++ tl.2)
    | .error e => (tl.1, (r.2 ++ [Effect.warnFailedRequest b e]) ++ tl.2)

/-- `WaveformClient.get_waveforms_bulk` on a list argument: the `filename`
keyword is popped first, the items run sequentially through `gwItem`, and
on a set filename the aggregate stream is written (a write failure only
warns). -/
def gwBulk (db : Str → List IndexRecord)
    (decode : Str → Nat → Nat → Int → Int → Except Str (List Segment))
    (writeErr : Str → Option Str) (bulk : List GWReq) (quality : Option Str)
    (minimumlength longestonly : Option Unit) (filename : Option Str) :
    List Segment × List Effect :=
  let run := bulkLoop (gwItem db decode writeErr quality minimumlength longestonly) bulk
  match filename with
  | none => run
  | some fn =>
    match writeErr fn with
    | none => (run.1, run.2 ++ [Effect.writeFile fn])
    | some m =>
      (run.1, run.2 ++ [Effect.warnMsg ((S "failed to save bulk stream to \"") ++ fn ++ (S "\": ") ++ m)])

/-- Modelled SQL-engine semantics of the two compiled time comparisons
`endtime>"{starttime}"` and `starttime<"{endtime}"`: the record passes the
time-overlap part of the predicate iff both strict comparisons hold. -/
def timeSel (r : IndexRecord) (s e : Int) : Bool :=
  decide (r.endtime > s) && decide (r.starttime < e)

/-- A Python keyword-argument value as the catalog/pick builders receive it:
a string, an `obspy.UTCDateTime` (modelled by its integer timestamp), or a
plain number (latitude bounds, magnitudes, and similar). -/
inductive PyVal where
  | str (s : Str)
  | utc (t : Int)
  | num (n : Int)
  deriving DecidableEq

/-- Interpolation of a keyword value into an f-string, the model of Python
`f"{_i}"`: a string renders as itself, numbers and timestamps through their
integer rendering. -/
def pyStr : PyVal → Str
  | .str s => s
  | .utc t => intToStr t
  | .num n => intToStr n

/-- Python `str.upper()` on the ASCII phase codes the pick builder handles. -/
def pyUpper (s : Str) : Str := s.map Char.toUpper

/-- The `keys` argument handling shared by `QuakeClient.query` and
`PickClient.query`: a string is used verbatim; a list is `", ".join`-ed
unless empty, in which case `*` is used. -/
def queryKeyOf : Str ⊕ List Str → Str
  | .inl s => s
  | .inr l => if l.length > 0 then pyJoin (S ", ") l else (S "*")

/-- One iteration of the `elif` chain of `QuakeClient.query`: a known key
yields the rendered condition (`inl`), an unknown key yields the printed
diagnostic `f"query by {_k} not implement."` (`inr`).  `utcParse` models the
external `obspy.UTCDateTime(_i).timestamp` conversion applied to
non-`UTCDateTime` time bounds. -/
def quakeEntry (utcParse : PyVal → Int) (k : Str) (v : PyVal) : Str ⊕ Str :=
  if k = S "mintime" then
    .inl ((S "timestamp >= ") ++ intToStr (match v with | .utc t => t | w => utcParse w))
  else if k = S "maxtime" then
    .inl ((S "timestamp <= ") ++ intToStr (match v with | .utc t => t | w => utcParse w))
  else if k = S "contributor" then .inl ((S "contributor = '") ++ pyStr v ++ (S "'"))
  else if k = S "minlatitude" then .inl ((S "latitude >= ") ++ pyStr v)
  else if k = S "maxlatitude" then .inl ((S "latitude <= ") ++ pyStr v)
  else if k = S "minlongitude" then .inl ((S "longitude >= ") ++ pyStr v)
  else if k = S "maxlongitude" then .inl ((S "longitude <= ") ++ pyStr v)
  else if k = S "mindepth" then .inl ((S "depth >= ") ++ pyStr v)
  else if k = S "maxdepth" then .inl ((S "depth <= ") ++ pyStr v)
  else if k = S "minmagnitude" then .inl ((S "magnitude >= ") ++ pyStr v)
  else if k = S "maxmagnitude" then .inl ((S "magnitude <= ") ++ pyStr v)
  else if k = S "source_id" ∨ k = S "event_type" then
    .inl (k ++ (S " = '") ++ pyStr v ++ (S "'"))
  else .inr ((S "query by ") ++ k ++ (S " not implement."))

/-- The keys of `QuakeClient.query`'s dispatch chain. -/
def quakeKeys : List Str :=
  [S "mintime", S "maxtime", S "contributor", S "minlatitude", S "maxlatitude",
   S "minlongitude", S "maxlongitude", S "mindepth", S "maxdepth",
   S "minmagnitude", S "maxmagnitude", S "source_id", S "event_type"]

/-- The filter loop of `QuakeClient.query`: the conditions `_qs` appended for
known keys and the diagnostics printed for unknown ones, in order. -/
def quakeProcess (utcParse : PyVal → Int) : List (Str × PyVal) → List Str × List Str
  | [] => ([], [])
  | (k, v) :: rest =>
    let tl := quakeProcess utcParse rest
    match quakeEntry utcParse k v with
    | .inl q => (q :: tl.1, tl.2)
    | .inr d => (tl.1, d :: tl.2)

/-- The `WHERE` clause assembly shared by both builders: nothing when no
condition was collected, the single condition alone, or the `sep.join` of
all of them. -/
def whereClause (sep : Str) (qs : List Str) : Str :=
  match qs with
  | [] => []
  | [q] => (S " WHERE ") ++ q
  | qs => (S " WHERE ") ++ pyJoin sep qs

/-- `QuakeClient.query`: builds `SELECT {keys} FROM catalog ` plus the
`WHERE` clause (conditions joined with lowercase `" and "`), executes it,
and returns the executed query string together with the printed
diagnostics.  The loop has no failure path, so every call reaches
`cursor.execute`. -/
def quakeQuery (utcParse : PyVal → Int) (keys : Str ⊕ List Str)
    (kwargs : List (Str × PyVal)) : Str × List Str :=
  let run := quakeProcess utcParse kwargs
  ((S "SELECT ") ++ queryKeyOf keys ++ (S " FROM catalog ")
     ++ whereClause (S " and ") run.1 ++ (S ";"),
   run.2)

/-- The allow-listed string-filter keys of `PickClient.query`. -/
def pickStrKeys : List Str :=
  [S "station", S "network", S "location", S "channel",
   S "evaluation_mode", S "source_id"]

/-- The filter loop of `PickClient.query` with the local variable `_q`
threaded explicitly as `qv : Option Str` (`none` = not yet assigned).
String values are first screened for the engine wildcards `_`, `%` and for
`-`; allow-listed keys and `phase` render equality or `LIKE` conditions;
a `UTCDateTime` value assigns `_q` only under `mintime`/`maxtime` and then
appends `_q` unconditionally — appending the stale previous `_q` for other
keys, or failing with `UnboundLocalError` when `_q` was never assigned;
every other value type raises naming the key. -/
def pickLoop : List (Str × PyVal) → Option Str → Except PyErr (List Str × Option Str)
  | [], qv => .ok ([], qv)
  | (k, v) :: rest, qv =>
    match v with
    | .str s =>
      if s.contains '_' || s.contains '%' || s.contains '-' then
        .error (.valueError (S "Only wildcards ? and * are supported."))
      else if k ∈ pickStrKeys then
        let q := if !s.contains '?' && !s.contains '*' then eqCond k s
                 else likeCond k (wildcard_mapper s)
        (pickLoop rest (some q)).map (fun tl => (q :: tl.1, tl.2))
      else if k = S "phase" then
        let q := if !s.contains '?' && !s.contains '*' then eqCond k (pyUpper s)
                 else likeCond k (wildcard_mapper s)
        (pickLoop rest (some q)).map (fun tl => (q :: tl.1, tl.2))
      else
        .error (.valueError ((S "Unsupported query key <") ++ k ++ (S ">: ") ++ s))
    | .utc t =>
      let qv2 := if k = S "mintime" then some ((S "timestamp >= ") ++ intToStr t)
                 else if k = S "maxtime" then some ((S "timestamp <= ") ++ intToStr t)
                 else qv
      match qv2 with
      | none => .error .unboundLocalError
      | some q => (pickLoop rest (some q)).map (fun tl => (q :: tl.1, tl.2))
    | w =>
      .error (.valueError ((S "Unsupported query key <") ++ k ++ (S ">: ") ++ pyStr w))

/-- `PickClient.query` for a client whose backing table is `tbl`: on a
successful filter loop it returns the executed query string
(`SELECT {keys} FROM {tbl} ` plus the `WHERE` clause joined with
`" AND "`); a raise in the loop propagates and no query executes. -/
def pickQuery (tbl : Str) (keys : Str ⊕ List Str)
    (kwargs : List (Str × PyVal)) : Except PyErr Str :=
  match pickLoop kwargs none with
  | .error e => .error e
  | .ok run =>
    .ok ((S "SELECT ") ++ queryKeyOf keys ++ (S " FROM ") ++ tbl ++ (S " ")
      ++ whereClause (S " AND ") run.1 ++ (S ";"))

example : pickLoop [(S "phase", .str (S "p"))] none =
    .ok ([S "phase = 'P'"], some (S "phase = 'P'")) := rfl

example : quakeQuery (fun _ => 0) (.inl (S "*")) [(S "minmagnitude", .num 3)] =
    (S "SELECT * FROM catalog  WHERE magnitude >= 3;", []) := by decide

/-- Specification-side characterization of the wildcard translation, written
from the spec's words: `*` goes to the multi-character token `%`, `?` to the
single-character token `_`, every other character is left unchanged.  It is
compared against the source's `wildcard_mapper` below. -/
def wildcardCharSpec (c : Char) : Char :=
  if c = '*' then '%' else if c = '?' then '_' else c

/-- The stream an individual bulk item contributes: its result on success,
nothing on failure. -/
def okStream (gw : GWReq → Except PyErr (List Segment) × List Effect)
    (b : GWReq) : List Segment :=
  match (gw b).1 with
  | .ok s => s
  | .error _ => []

/-- A database oracle with no matching index rows, for concrete witnesses. -/
def noDb : Str → List IndexRecord := fun _ => []

/-- A decode oracle that always succeeds with an empty stream. -/
def noDecode : Str → Nat → Nat → Int → Int → Except Str (List Segment) :=
  fun _ _ _ _ _ => .ok []

/-- A write oracle that always succeeds. -/
def noWrite : Str → Option Str := fun _ => none

/-- A request whose start is after its end. -/
def reqBad : GWReq := ⟨S "UW", S "RCM", S "", S "HHZ", 10, 5⟩

/-- A well-formed request, used by concrete witnesses. -/
def reqOk1 : GWReq := ⟨S "UW", S "JCW", S "", S "HHZ", 0, 5⟩

/-- A second well-formed request, used by concrete witnesses. -/
def reqOk2 : GWReq := ⟨S "UW", S "MBW", S "", S "EHZ", 0, 5⟩

/-- A concrete index row whose byte range will fail to decode. -/
def recA : IndexRecord := ⟨S "UW", S "RCM", S "", S "HHZ", S "D", 0, 100, 0, 512, S "a.ms"⟩

/-- A concrete index row whose byte range decodes to `segB`. -/
def recB : IndexRecord := ⟨S "UW", S "RCM", S "", S "HHZ", S "D", 100, 200, 512, 512, S "b.ms"⟩

/-- The decoded segment of `recB`. -/
def segB : Segment := ⟨S "UW", S "RCM", S "", S "HHZ", 100, 200⟩

/-- A database oracle returning `recA` then `recB` for any query. -/
def dbTwo : Str → List IndexRecord := fun _ => [recA, recB]

/-- A decode oracle failing on the file of `recA` and decoding the file of
`recB` to `segB`. -/
def decodeFailA : Str → Nat → Nat → Int → Int → Except Str (List Segment) :=
  fun fn _ _ _ _ => if fn = S "a.ms" then .error (S "unable to decode") else .ok [segB]

lemma contains_true_iff (s : Str) (a : Char) : s.contains a = true ↔ a ∈ s :=
  List.elem_iff

lemma contains_false_iff (s : Str) (a : Char) : s.contains a = false ↔ a ∉ s := by
  rw [← Bool.not_eq_true]
  exact not_congr (contains_true_iff s a)

lemma replaceChar_of_not_contains (a b : Char) (s : Str)
    (h : s.contains a = false) : replaceChar a b s = s := by
  have hm : a ∉ s := (contains_false_iff s a).mp h
  unfold replaceChar
  have hc : ∀ c ∈ s, (if c = a then b else c) = id c := by
    intro c hcs
    by_cases hca : c = a
    · exact absurd (hca ▸ hcs) hm
    · simp [hca]
  rw [List.map_congr_left hc, List.map_id]

lemma wildcard_mapper_eq_replace (s : Str) :
    wildcard_mapper s = replaceChar '?' '_' (replaceChar '*' '%' s) := by
  unfold wildcard_mapper
  by_cases h1 : s.contains '*' = true
  · simp only [h1, if_true]
    by_cases h2 : (replaceChar '*' '%' s).contains '?' = true
    · simp only [h2, if_true]
    · simp only [Bool.not_eq_true] at h2
      simp only [h2, Bool.false_eq_true, if_false]
      rw [replaceChar_of_not_contains '?' '_' _ h2]
  · simp only [Bool.not_eq_true] at h1
    simp only [h1, Bool.false_eq_true, if_false]
    rw [replaceChar_of_not_contains '*' '%' s h1]
    by_cases h2 : s.contains '?' = true
    · simp only [h2, if_true]
    · simp only [Bool.not_eq_true] at h2
      simp only [h2, Bool.false_eq_true, if_false]
      rw [replaceChar_of_not_contains '?' '_' s h2]

lemma wildcard_mapper_eq_map (s : Str) :
    wildcard_mapper s = s.map wildcardCharSpec := by
  rw [wildcard_mapper_eq_replace]
  unfold replaceChar
  rw [List.map_map]
  have h : ((fun c => if c = '?' then '_' else c) ∘ fun c => if c = '*' then '%' else c)
      = wildcardCharSpec := by
    funext c
    simp only [Function.comp, wildcardCharSpec]
    by_cases h1 : c = '*'
    · simp [h1]
    · by_cases h2 : c = '?' <;> simp [h1, h2]
  rw [h]

lemma contains_map_eq (f : Char → Char) (a : Char) (h : ∀ c, f c = a ↔ c = a)
    (s : Str) : (s.map f).contains a = s.contains a := by
  by_cases hm : a ∈ s
  · rw [(contains_true_iff s a).mpr hm,
      (contains_true_iff (s.map f) a).mpr (List.mem_map.mpr ⟨a, hm, (h a).mpr rfl⟩)]
  · have hm2 : a ∉ s.map f := by
      intro hx
      rcases List.mem_map.mp hx with ⟨c, hc, hfc⟩
      exact hm ((h c).mp hfc ▸ hc)
    rw [(contains_false_iff s a).mpr hm, (contains_false_iff (s.map f) a).mpr hm2]

lemma wildcardCharSpec_comma_iff (c : Char) : wildcardCharSpec c = ',' ↔ c = ',' := by
  unfold wildcardCharSpec
  by_cases h1 : c = '*'
  · simp [h1]
  · by_cases h2 : c = '?' <;> simp [h1, h2]

lemma mappedVal_contains_comma (v : Str) :
    (mappedVal v).contains ',' = v.contains ',' := by
  unfold mappedVal
  by_cases h : (v.contains '?' || v.contains '*') = true
  · rw [if_pos h, wildcard_mapper_eq_map,
      contains_map_eq wildcardCharSpec ',' wildcardCharSpec_comma_iff v]
  · rw [if_neg h]

lemma pySplit_ne_nil (sep : Char) (s : Str) : pySplit sep s ≠ [] := by
  cases s with
  | nil => simp [pySplit]
  | cons c rest =>
    unfold pySplit
    rcases h : pySplit sep rest with _ | ⟨x, xs⟩
    · simp
    · by_cases hc : c = sep <;> simp [hc]

lemma pySplit_cons (sep c : Char) (xs : Str) :
    pySplit sep (c :: xs) =
      match pySplit sep xs with
      | [] => [[]]
      | h :: t => if c = sep then [] :: h :: t else (c :: h) :: t := rfl

lemma pySplit_length_cons (sep c : Char) (xs : Str) :
    (pySplit sep (c :: xs)).length =
      (pySplit sep xs).length + (if c = sep then 1 else 0) := by
  rcases h : pySplit sep xs with _ | ⟨x, t⟩
  · exact absurd h (pySplit_ne_nil sep xs)
  · rw [pySplit_cons, h]
    by_cases hc : c = sep <;> simp [hc]

lemma pySplit_length_map (sep : Char) (f : Char → Char) (h : ∀ c, f c = sep ↔ c = sep)
    (s : Str) : (pySplit sep (s.map f)).length = (pySplit sep s).length := by
  induction s with
  | nil => rfl
  | cons c cs ih =>
    rw [List.map_cons, pySplit_length_cons, pySplit_length_cons, ih]
    congr 1
    simp only [h c]

lemma mappedVal_split_comma_length (v : Str) :
    (pySplit ',' (mappedVal v)).length = (pySplit ',' v).length := by
  unfold mappedVal
  by_cases h : (v.contains '?' || v.contains '*') = true
  · rw [if_pos h, wildcard_mapper_eq_map,
      pySplit_length_map ',' wildcardCharSpec wildcardCharSpec_comma_iff v]
  · rw [if_neg h]

lemma fieldCond_exact (k v : Str) (h1 : v.contains '*' = false)
    (h2 : v.contains '?' = false) (h3 : v.contains ',' = false) :
    fieldCond k v = eqCond k v := by
  have h1m : '*' ∉ v := (contains_false_iff v '*').mp h1
  have h2m : '?' ∉ v := (contains_false_iff v '?').mp h2
  have h3m : ',' ∉ v := (contains_false_iff v ',').mp h3
  unfold fieldCond
  simp [h1m, h2m, h3m]

lemma fieldCond_comma (k v : Str) (hv : v.contains ',' = true) :
    fieldCond k v =
      (S "(") ++ pyJoin (S " OR ") ((pySplit ',' (mappedVal v)).map (elemCond k)) ++ (S ")") := by
  have hb : (mappedVal v).contains ',' = true := by
    rw [mappedVal_contains_comma]; exact hv
  unfold fieldCond
  have e : (if v.contains '?' || v.contains '*' then wildcard_mapper v else v)
      = mappedVal v := rfl
  simp only [e, hb, if_true]

lemma fieldCond_eq (k v : Str) :
    fieldCond k v =
      if (mappedVal v).contains ',' then
        (S "(") ++ pyJoin (S " OR ") ((pySplit ',' (mappedVal v)).map (elemCond k)) ++ (S ")")
      else if v.contains '?' || v.contains '*' then likeCond k (mappedVal v)
      else eqCond k (mappedVal v) := rfl

lemma mem_mappedVal (c : Char) (hc : wildcardCharSpec c = c) (v : Str)
    (h : c ∈ v) : c ∈ mappedVal v := by
  unfold mappedVal
  by_cases hw : (v.contains '?' || v.contains '*') = true
  · rw [if_pos hw, wildcard_mapper_eq_map]
    exact List.mem_map.mpr ⟨c, h, hc⟩
  · rw [if_neg hw]
    exact h

lemma pyJoin_mem (sep : Str) (c : Char) (l : List Str) :
    ∀ p ∈ l, c ∈ p → c ∈ pyJoin sep l := by
  induction l with
  | nil =>
    intro p hp _
    exact absurd hp (List.not_mem_nil p)
  | cons x xs ih =>
    intro p hp hc
    cases xs with
    | nil =>
      have hx := List.mem_singleton.mp hp
      subst hx
      exact hc
    | cons y ys =>
      rcases List.mem_cons.mp hp with h | h
      · subst h
        exact show c ∈ p ++ sep ++ pyJoin (sep) (y :: ys) from
          List.mem_append.mpr (Or.inl (List.mem_append.mpr (Or.inl hc)))
      · exact show c ∈ x ++ sep ++ pyJoin (sep) (y :: ys) from
          List.mem_append.mpr (Or.inr (ih p h hc))

lemma pySplit_cons_eq (sep a : Char) (xs : Str) (hd : Str) (tl : List Str)
    (h : pySplit sep xs = hd :: tl) :
    pySplit sep (a :: xs) = if a = sep then [] :: hd :: tl else (a :: hd) :: tl := by
  rw [pySplit_cons, h]

lemma pySplit_mem (sep c : Char) (hne : c ≠ sep) (s : Str) :
    c ∈ s → ∃ p ∈ pySplit sep s, c ∈ p := by
  induction s with
  | nil =>
    intro h
    exact absurd h (List.not_mem_nil c)
  | cons a xs ih =>
    intro h
    rcases hsp : pySplit sep xs with _ | ⟨hd, tl⟩
    · exact absurd hsp (pySplit_ne_nil sep xs)
    · rcases List.mem_cons.mp h with rfl | hmem
      · rw [pySplit_cons_eq sep c xs hd tl hsp, if_neg hne]
        exact ⟨c :: hd, List.mem_cons_self _ _, List.mem_cons_self c hd⟩
      · obtain ⟨p, hp, hcp⟩ := ih hmem
        rw [hsp] at hp
        by_cases ha : a = sep
        · rw [pySplit_cons_eq sep a xs hd tl hsp, if_pos ha]
          exact ⟨p, List.mem_cons_of_mem _ hp, hcp⟩
        · rw [pySplit_cons_eq sep a xs hd tl hsp, if_neg ha]
          rcases List.mem_cons.mp hp with rfl | hp2
          · exact ⟨a :: p, List.mem_cons_self _ _, List.mem_cons_of_mem a hcp⟩
          · exact ⟨p, List.mem_cons_of_mem _ hp2, hcp⟩

lemma mem_elemCond (k p : Str) (c : Char) (h : c ∈ p) : c ∈ elemCond k p := by
  unfold elemCond
  by_cases hp : (p.contains '%' || p.contains '_') = true
  · rw [if_pos hp]
    exact List.mem_append.mpr (Or.inl (List.mem_append.mpr (Or.inr h)))
  · rw [if_neg hp]
    exact List.mem_append.mpr (Or.inl (List.mem_append.mpr (Or.inr h)))

lemma mem_fieldCond (k v : Str) (c : Char) (hc : wildcardCharSpec c = c)
    (hsep : c ≠ ',') (h : c ∈ v) : c ∈ fieldCond k v := by
  have hm : c ∈ mappedVal v := mem_mappedVal c hc v h
  rw [fieldCond_eq]
  by_cases hb : (mappedVal v).contains ',' = true
  · rw [if_pos hb]
    obtain ⟨p, hp, hcp⟩ := pySplit_mem ',' c hsep (mappedVal v) hm
    have hpj : c ∈ pyJoin (S " OR ") ((pySplit ',' (mappedVal v)).map (elemCond k)) :=
      pyJoin_mem (S " OR ") c _ (elemCond k p)
        (List.mem_map_of_mem (elemCond k) hp) (mem_elemCond k p c hcp)
    exact List.mem_append.mpr (Or.inl (List.mem_append.mpr (Or.inr hpj)))
  · rw [if_neg hb]
    by_cases hw : (v.contains '?' || v.contains '*') = true
    · rw [if_pos hw]
      exact List.mem_append.mpr (Or.inl (List.mem_append.mpr (Or.inr hm)))
    · rw [if_neg hw]
      exact List.mem_append.mpr (Or.inl (List.mem_append.mpr (Or.inr hm)))

lemma quakeProcess_cons (up : PyVal → Int) (k : Str) (v : PyVal)
    (kw : List (Str × PyVal)) :
    quakeProcess up ((k, v) :: kw) =
      match quakeEntry up k v with
      | .inl q => (q :: (quakeProcess up kw).1, (quakeProcess up kw).2)
      | .inr d => ((quakeProcess up kw).1, d :: (quakeProcess up kw).2) := by
  cases h : quakeEntry up k v with
  | inl q => simp [quakeProcess, h]
  | inr d => simp [quakeProcess, h]

lemma quakeProcess_append (up : PyVal → Int) (l1 l2 : List (Str × PyVal)) :
    quakeProcess up (l1 ++ l2) =
      ((quakeProcess up l1).1 ++ (quakeProcess up l2).1,
       (quakeProcess up l1).2 ++ (quakeProcess up l2).2) := by
  induction l1 with
  | nil => rfl
  | cons kv tl ih =>
    rcases kv with ⟨k, v⟩
    rw [List.cons_append, quakeProcess_cons, quakeProcess_cons, ih]
    cases h : quakeEntry up k v with
    | inl q => simp
    | inr d => simp

lemma quakeEntry_unknown (up : PyVal → Int) (k : Str) (v : PyVal)
    (hk : k ∉ quakeKeys) :
    quakeEntry up k v = .inr ((S "query by ") ++ k ++ (S " not implement.")) := by
  simp only [quakeKeys, List.mem_cons, List.mem_singleton, not_or] at hk
  obtain ⟨n1, n2, n3, n4, n5, n6, n7, n8, n9, n10, n11, n12, n13⟩ := hk
  unfold quakeEntry
  simp [n1, n2, n3, n4, n5, n6, n7, n8, n9, n10, n11, n12, n13]

lemma bulkLoop_cons (gw : GWReq → Except PyErr (List Segment) × List Effect)
    (b : GWReq) (rest : List GWReq) :
    bulkLoop gw (b :: rest) =
      match (gw b).1 with
      | .ok s => (s ++ (bulkLoop gw rest).1, (gw b).2 ++ (bulkLoop gw rest).2)
      | .error e =>
        ((bulkLoop gw rest).1,
         ((gw b).2 ++ [Effect.warnFailedRequest b e]) ++ (bulkLoop gw rest).2) := by
  cases h : (gw b).1 with
  | ok s => simp [bulkLoop, h]
  | error e => simp [bulkLoop, h]

lemma bulkLoop_append (gw : GWReq → Except PyErr (List Segment) × List Effect)
    (l1 l2 : List GWReq) :
    bulkLoop gw (l1 ++ l2) =
      ((bulkLoop gw l1).1 ++ (bulkLoop gw l2).1,
       (bulkLoop gw l1).2 ++ (bulkLoop gw l2).2) := by
  induction l1 with
  | nil => rfl
  | cons b tl ih =>
    rw [List.cons_append, bulkLoop_cons, bulkLoop_cons, ih]
    cases h : (gw b).1 with
    | ok s => simp
    | error e => simp

lemma bulkLoop_all_ok (gw : GWReq → Except PyErr (List Segment) × List Effect)
    (l : List GWReq) (h : ∀ x ∈ l, ∃ s, (gw x).1 = .ok s) :
    (bulkLoop gw l).1 = (l.map (okStream gw)).flatten := by
  induction l with
  | nil => rfl
  | cons b tl ih =>
    obtain ⟨s, hs⟩ := h b (List.mem_cons_self b tl)
    have hos : okStream gw b = s := by unfold okStream; rw [hs]
    rw [bulkLoop_cons, hs, List.map_cons, List.flatten_cons, hos,
      ih (fun x hx => h x (List.mem_cons_of_mem b hx))]

/-- C5: For every input string, the wildcard translation `wildcard_mapper`
replaces every occurrence of `*` with the multi-character pattern token `%`
and every occurrence of `?` with the single-character token `_`, independent
of position or repetition, leaving all other characters unchanged: it acts
as the character-wise substitution `wildcardCharSpec` on the whole string. -/
theorem wildcard_translation_charwise (s : Str) :
    wildcard_mapper s = s.map wildcardCharSpec
    ∧ wildcardCharSpec '*' = '%' ∧ wildcardCharSpec '?' = '_' :=
  ⟨wildcard_mapper_eq_map s, rfl, rfl⟩

/-- C3: For every requested window `[s, e]`, the compiled condition list
carries the two time-overlap comparisons as two separate AND-ed elements
(positions 4 and 5, never a single BETWEEN): `endtime>"{s}"` and
`starttime<"{e}"`; under the modelled SQL semantics a record is selected by
them iff `record.end > s ∧ record.start < e`, with strict inequality on both
sides, so a record ending exactly at `s` or starting exactly at `e` is
excluded. -/
theorem time_overlap_strict_both_sides (net sta loc cha : Str) (s e : Int)
    (q : Option Str) (r : IndexRecord) :
    (gwConds net sta loc cha s e q).drop 4 =
      timeGtStr s :: timeLtStr e ::
        (match q with | some qq => [qualCond qq] | none => [])
    ∧ (gwConds net sta loc cha s e q)[4]? = some (timeGtStr s)
    ∧ (timeSel r s e = true ↔ (r.endtime > s ∧ r.starttime < e))
    ∧ timeSel { r with endtime := s } s e = false
    ∧ timeSel { r with starttime := e } s e = false := by
  refine ⟨rfl, rfl, ?_, ?_, ?_⟩
  · simp [timeSel]
  · simp [timeSel]
  · simp [timeSel]

/-- C4: Every call to `get_waveforms` with `starttime > endtime` raises
`ValueError('starttime is after endtime')` with an empty effect trace: no
`cursor.execute` and no file open happens, whatever the database, decoder,
filters, quality, placeholder flags or filename are. -/
theorem invalid_range_fails_before_io (db : Str → List IndexRecord)
    (decode : Str → Nat → Nat → Int → Int → Except Str (List Segment))
    (writeErr : Str → Option Str) (req : GWReq) (quality : Option Str)
    (ml lo : Option Unit) (fn : Option Str)
    (h : req.starttime > req.endtime) :
    gwRun db decode writeErr req quality ml lo fn =
      (.error (.valueError (S "starttime is after endtime")), []) := by
  unfold gwRun
  rw [if_pos h]

/-- C4 witness: the theorem discharged at the concrete request
`reqBad = (UW, RCM, blank location, HHZ, 10, 5)`. -/
theorem invalid_range_fails_before_io_witness :
    gwRun noDb noDecode noWrite reqBad none none none none =
      (.error (.valueError (S "starttime is after endtime")), []) :=
  invalid_range_fails_before_io noDb noDecode noWrite reqBad none none none none
    (by decide)

/-- C6: For every comma-delimited filter value, the compiled per-field
predicate is the parenthesized `OR`-join of exactly one comparison per
comma-separated element of the (wildcard-mapped) value — a `LIKE` for
elements holding a pattern token, an equality otherwise — and the element
count equals the comma-element count of the original value; the whole group
is a single entry of the AND-ed condition list (shown for the station
field). -/
theorem comma_list_is_parenthesized_or_group (k v : Str)
    (hv : v.contains ',' = true) :
    fieldCond k v =
      (S "(") ++ pyJoin (S " OR ") ((pySplit ',' (mappedVal v)).map (elemCond k)) ++ (S ")")
    ∧ ((pySplit ',' (mappedVal v)).map (elemCond k)).length = (pySplit ',' v).length
    ∧ (∀ w ∈ pySplit ',' (mappedVal v),
        elemCond k w =
          if w.contains '%' || w.contains '_' then likeCond k w else eqCond k w)
    ∧ ∀ net loc cha s e q,
        (gwConds net v loc cha s e q)[1]? = some (fieldCond (S "station") v) := by
  refine ⟨fieldCond_comma k v hv, ?_, ?_, ?_⟩
  · rw [List.length_map, mappedVal_split_comma_length]
  · intro w _
    rfl
  · intro net loc cha s e q
    rfl

/-- C6 witness: the theorem discharged at `station = "MBW*,JCW"`, whose
compiled group is `(station LIKE 'MBW%' OR station = 'JCW')` with one
comparison per element. -/
theorem comma_list_is_parenthesized_or_group_witness :
    fieldCond (S "station") (S "MBW*,JCW") =
      S "(station LIKE 'MBW%' OR station = 'JCW')"
    ∧ ((pySplit ',' (mappedVal (S "MBW*,JCW"))).map (elemCond (S "station"))).length
        = (pySplit ',' (S "MBW*,JCW")).length := by
  have h := comma_list_is_parenthesized_or_group (S "station") (S "MBW*,JCW") (by decide)
  exact ⟨h.1.trans (by decide), h.2.1⟩

/-- C7: When all four NSLC filter values are exact identifiers (no `*`, `?`
or `,`), the compiled condition list is exactly one equality per field plus
the two time comparisons and the optional quality equality — no `OR` group
and no `LIKE` — and the query string is their `' AND '.join` after the fixed
SELECT clause. -/
theorem exact_filters_pure_and_of_equalities (net sta loc cha : Str)
    (s e : Int) (q : Option Str)
    (h : ∀ v ∈ [net, sta, loc, cha],
      v.contains '*' = false ∧ v.contains '?' = false ∧ v.contains ',' = false) :
    gwConds net sta loc cha s e q =
      [eqCond (S "network") net, eqCond (S "station") sta,
       eqCond (S "location") loc, eqCond (S "channel") cha,
       timeGtStr s, timeLtStr e]
      ++ (match q with | some qq => [qualCond qq] | none => [])
    ∧ gwQueryStr net sta loc cha s e q =
        (S "SELECT byteoffset, bytes, filename FROM tsindex WHERE ")
          ++ pyJoin (S " AND ") (gwConds net sta loc cha s e q) := by
  have hn := h net (by simp)
  have hst := h sta (by simp)
  have hl := h loc (by simp)
  have hch := h cha (by simp)
  refine ⟨?_, rfl⟩
  unfold gwConds
  rw [fieldCond_exact _ _ hn.1 hn.2.1 hn.2.2, fieldCond_exact _ _ hst.1 hst.2.1 hst.2.2,
    fieldCond_exact _ _ hl.1 hl.2.1 hl.2.2, fieldCond_exact _ _ hch.1 hch.2.1 hch.2.2]
  rfl

/-- C7 witness: the theorem discharged at the exact filters
`(UW, JCW, blank location, HHZ)` over `[0, 5]` without quality. -/
theorem exact_filters_pure_and_of_equalities_witness :
    gwConds (S "UW") (S "JCW") (S "") (S "HHZ") 0 5 none =
      [eqCond (S "network") (S "UW"), eqCond (S "station") (S "JCW"),
       eqCond (S "location") (S ""), eqCond (S "channel") (S "HHZ"),
       timeGtStr 0, timeLtStr 5] := by
  have h := exact_filters_pure_and_of_equalities (S "UW") (S "JCW") (S "") (S "HHZ")
    0 5 none (by decide)
  simpa using h.1

/-- C1 counterexample: the catalog builder (`QuakeClient.query`) does not
reject a value with a literal `_`: `source_id = "a_b"` compiles to a normal
equality condition, no diagnostic is printed, and the query executes —
contradicting the claim that both the catalog and pick builders reject such
values with an "unsupported wildcard" error before any query executes. -/
theorem quake_accepts_underscore_value :
    quakeQuery (fun _ => 0) (.inl (S "*")) [(S "source_id", .str (S "a_b"))] =
      (S "SELECT * FROM catalog  WHERE source_id = 'a_b';", []) := by decide

/-- C1 (amended): For every string filter value holding a literal `_` or
`%`, the pick builder (`PickClient.query`) raises
`ValueError('Only wildcards ? and * are supported.')` before any query
executes, whatever the key; the catalog builder (`QuakeClient.query`)
applies no such rejection and interpolates the raw value into its equality
predicate (shown for `source_id`, with the call still executing); and the
waveform builder applies no rejection either and passes the raw `_`/`%`
through into the compiled per-field predicate unescaped — in every branch
(equality, `LIKE`, or comma `OR`-group) the literal character occurs in the
rendered condition. -/
theorem wildcard_rejection_pick_only (k s : Str) (rest : List (Str × PyVal))
    (qv : Option Str) (tbl : Str) (pkeys : Str ⊕ List Str) (up : PyVal → Int)
    (hs : s.contains '_' = true ∨ s.contains '%' = true) :
    pickLoop ((k, .str s) :: rest) qv =
      .error (.valueError (S "Only wildcards ? and * are supported."))
    ∧ pickQuery tbl pkeys ((k, .str s) :: rest) =
      .error (.valueError (S "Only wildcards ? and * are supported."))
    ∧ quakeEntry up (S "source_id") (.str s) =
        .inl ((S "source_id = '") ++ s ++ (S "'"))
    ∧ (quakeQuery up (.inl (S "*")) [(S "source_id", .str s)]).1 =
        (S "SELECT * FROM catalog  WHERE source_id = '") ++ s ++ (S "';")
    ∧ ('_' ∈ s → '_' ∈ fieldCond k s)
    ∧ ('%' ∈ s → '%' ∈ fieldCond k s) := by
  have hm : ('_' ∈ s ∨ '%' ∈ s) ∨ '-' ∈ s := by
    rcases hs with h | h
    · exact Or.inl (Or.inl ((contains_true_iff s '_').mp h))
    · exact Or.inl (Or.inr ((contains_true_iff s '%').mp h))
  have hpl : ∀ qv' : Option Str, pickLoop ((k, .str s) :: rest) qv' =
      .error (.valueError (S "Only wildcards ? and * are supported.")) := by
    intro qv'
    unfold pickLoop
    simp [hm]
  refine ⟨hpl qv, ?_, rfl, ?_,
    fun h => mem_fieldCond k s '_' (by decide) (by decide) h,
    fun h => mem_fieldCond k s '%' (by decide) (by decide) h⟩
  · unfold pickQuery
    rw [hpl none]
  · have h4 : (quakeQuery up (Sum.inl (S "*")) [(S "source_id", PyVal.str s)]).1 =
        (S "SELECT ") ++ (S "*") ++ (S " FROM catalog ")
          ++ ((S " WHERE ") ++ ((S "source_id = '") ++ s ++ (S "'"))) ++ (S ";") := rfl
    rw [h4]
    simp only [List.append_assoc]
    rfl

/-- C1 witness: the theorem discharged at `s = "B_?Z"` (a literal `_` next
to a user wildcard `?`) with key `station`: the pick call is rejected before
any query, and the `_` survives into the waveform builder's compiled
condition. -/
theorem wildcard_rejection_pick_only_witness :
    pickQuery (S "picks_uw") (.inl (S "*")) [(S "station", .str (S "B_?Z"))] =
      .error (.valueError (S "Only wildcards ? and * are supported."))
    ∧ '_' ∈ fieldCond (S "station") (S "B_?Z") := by
  have h := wildcard_rejection_pick_only (S "station") (S "B_?Z") [] none
    (S "picks_uw") (.inl (S "*")) (fun _ => 0) (Or.inl (by decide))
  exact ⟨h.2.1, h.2.2.2.2.1 (by decide)⟩

/-- C2 (code evidence): with two matching index rows where the first fails
to decode, `get_waveforms` returns only the second row's segments; the
failure path hits the `breakpoint()` debugger hook — no warning effect and
no mention of the failing record appear in the trace — while the remaining
record is still read and decoded. -/
theorem decode_failure_hits_breakpoint_not_logged :
    gwRun dbTwo decodeFailA noWrite ⟨S "UW", S "RCM", S "", S "HHZ", 0, 200⟩
        none none none none =
      (.ok [segB],
       [Effect.query (gwQueryStr (S "UW") (S "RCM") (S "") (S "HHZ") 0 200 none),
        Effect.openRead (S "a.ms") 0 512, Effect.breakpointHit (S "a.ms") 0 512,
        Effect.openRead (S "b.ms") 512 512]) := rfl

/-- C8 counterexample: an unknown filter key with a `UTCDateTime` value does
not make `PickClient.query` raise — with a preceding `mintime` filter the
stale `_q` is appended again and the query executes, contradicting the claim
that an unknown key always raises an error naming it with no query
executed. -/
theorem pick_unknown_utc_key_still_queries :
    pickQuery (S "picks_uw") (.inl (S "*")) [(S "mintime", .utc 0), (S "foo", .utc 1)] =
      .ok (S "SELECT * FROM picks_uw  WHERE timestamp >= 0 AND timestamp >= 0;") := rfl

/-- C8 (amended): For every filter key outside the dispatch table, the
catalog builder prints `query by {key} not implement.`, skips it, and still
executes the query built from the remaining filters unchanged; the pick
builder raises `ValueError('Unsupported query key <key>: value')` naming
the key, with no query executed, when the value is a string free of `_`,
`%`, `-` or a non-string non-`UTCDateTime` value — but not for
`UTCDateTime` values, where the stale-`_q` slip applies instead. -/
theorem unknown_key_catalog_skips_pick_raises
    (up : PyVal → Int) (qkeys : Str ⊕ List Str) (pre post : List (Str × PyVal))
    (k : Str) (v : PyVal) (tbl : Str) (pkeys : Str ⊕ List Str)
    (rest : List (Str × PyVal)) (s : Str) (n : Int)
    (hq : k ∉ quakeKeys) (hp1 : k ∉ pickStrKeys) (hp2 : k ≠ S "phase")
    (hs : s.contains '_' = false ∧ s.contains '%' = false ∧ s.contains '-' = false) :
    (quakeQuery up qkeys (pre ++ (k, v) :: post)).1 =
      (quakeQuery up qkeys (pre ++ post)).1
    ∧ (quakeProcess up (pre ++ (k, v) :: post)).2 =
      (quakeProcess up pre).2
        ++ ((S "query by ") ++ k ++ (S " not implement.")) :: (quakeProcess up post).2
    ∧ pickQuery tbl pkeys ((k, .str s) :: rest) =
        .error (.valueError ((S "Unsupported query key <") ++ k ++ (S ">: ") ++ s))
    ∧ pickQuery tbl pkeys ((k, .num n) :: rest) =
        .error (.valueError ((S "Unsupported query key <") ++ k ++ (S ">: ") ++ intToStr n)) := by
  have he := quakeEntry_unknown up k v hq
  have hmid : quakeProcess up ((k, v) :: post) =
      ((quakeProcess up post).1,
       ((S "query by ") ++ k ++ (S " not implement.")) :: (quakeProcess up post).2) := by
    rw [quakeProcess_cons, he]
  have hwild : (s.contains '_' || s.contains '%' || s.contains '-') = false := by
    rw [hs.1, hs.2.1, hs.2.2]
    rfl
  have hm1 : '_' ∉ s := (contains_false_iff s '_').mp hs.1
  have hm2 : '%' ∉ s := (contains_false_iff s '%').mp hs.2.1
  have hm3 : '-' ∉ s := (contains_false_iff s '-').mp hs.2.2
  refine ⟨?_, ?_, ?_, ?_⟩
  · unfold quakeQuery
    rw [quakeProcess_append, quakeProcess_append, hmid]
  · rw [quakeProcess_append, hmid]
  · unfold pickQuery pickLoop
    simp [hm1, hm2, hm3, hp1, hp2]
  · unfold pickQuery pickLoop
    rfl

/-- C8 witness: the theorem discharged at the unknown key `foo`: the catalog
call with `minmagnitude` plus `foo` compiles the same query as without
`foo`, and the pick call raises naming `foo`. -/
theorem unknown_key_catalog_skips_pick_raises_witness :
    (quakeQuery (fun _ => 0) (.inl (S "*"))
        [(S "minmagnitude", PyVal.num 3), (S "foo", PyVal.num 2)]).1 =
      (quakeQuery (fun _ => 0) (.inl (S "*")) [(S "minmagnitude", PyVal.num 3)]).1
    ∧ pickQuery (S "picks_uw") (.inl (S "*")) [(S "foo", PyVal.str (S "bar"))] =
        .error (.valueError ((S "Unsupported query key <") ++ (S "foo") ++ (S ">: ") ++ (S "bar"))) := by
  have h := unknown_key_catalog_skips_pick_raises (fun _ => 0) (.inl (S "*"))
    [(S "minmagnitude", PyVal.num 3)] [] (S "foo") (PyVal.num 2)
    (S "picks_uw") (.inl (S "*")) [] (S "bar") 5
    (by decide) (by decide) (by decide) ⟨by decide, by decide, by decide⟩
  exact ⟨h.1, h.2.2.1⟩

/-- C9: In `get_waveforms_bulk`, when exactly one item fails and every other
item succeeds, the failure is isolated: the returned aggregate stream is the
concatenation of the successful items' streams in order, and the effect
trace carries the failing item's effects followed by exactly the one
warning naming the failed request and its exception, between the traces of
the surrounding items. -/
theorem bulk_single_failure_isolated (db : Str → List IndexRecord)
    (decode : Str → Nat → Nat → Int → Int → Except Str (List Segment))
    (writeErr : Str → Option Str) (quality : Option Str) (ml lo : Option Unit)
    (l1 l2 : List GWReq) (b : GWReq) (e : PyErr) (fxB : List Effect)
    (hb : gwItem db decode writeErr quality ml lo b = (.error e, fxB))
    (hok : ∀ x ∈ l1 ++ l2, ∃ s, (gwItem db decode writeErr quality ml lo x).1 = .ok s) :
    (gwBulk db decode writeErr (l1 ++ b :: l2) quality ml lo none).1 =
      ((l1 ++ l2).map (okStream (gwItem db decode writeErr quality ml lo))).flatten
    ∧ (gwBulk db decode writeErr (l1 ++ b :: l2) quality ml lo none).2 =
      (bulkLoop (gwItem db decode writeErr quality ml lo) l1).2 ++ fxB
        ++ Effect.warnFailedRequest b e
            :: (bulkLoop (gwItem db decode writeErr quality ml lo) l2).2 := by
  have hcons : bulkLoop (gwItem db decode writeErr quality ml lo) (b :: l2) =
      ((bulkLoop (gwItem db decode writeErr quality ml lo) l2).1,
       (fxB ++ [Effect.warnFailedRequest b e])
         ++ (bulkLoop (gwItem db decode writeErr quality ml lo) l2).2) := by
    rw [bulkLoop_cons, hb]
  have hok1 : ∀ x ∈ l1, ∃ s, (gwItem db decode writeErr quality ml lo x).1 = .ok s :=
    fun x hx => hok x (List.mem_append_left _ hx)
  have hok2 : ∀ x ∈ l2, ∃ s, (gwItem db decode writeErr quality ml lo x).1 = .ok s :=
    fun x hx => hok x (List.mem_append_right _ hx)
  have hb1 : gwBulk db decode writeErr (l1 ++ b :: l2) quality ml lo none =
      bulkLoop (gwItem db decode writeErr quality ml lo) (l1 ++ b :: l2) := rfl
  constructor
  · rw [hb1, bulkLoop_append, hcons]
    show (bulkLoop (gwItem db decode writeErr quality ml lo) l1).1
        ++ (bulkLoop (gwItem db decode writeErr quality ml lo) l2).1 = _
    rw [bulkLoop_all_ok _ _ hok1, bulkLoop_all_ok _ _ hok2,
      List.map_append, List.flatten_append]
  · rw [hb1, bulkLoop_append, hcons]
    simp

/-- C9 witness: the theorem discharged at a three-item bulk list whose
middle item has `starttime > endtime`. -/
theorem bulk_single_failure_isolated_witness :
    (gwBulk noDb noDecode noWrite ([reqOk1] ++ reqBad :: [reqOk2]) none none none none).1 =
      (([reqOk1] ++ [reqOk2]).map (okStream (gwItem noDb noDecode noWrite none none none))).flatten
    ∧ (gwBulk noDb noDecode noWrite ([reqOk1] ++ reqBad :: [reqOk2]) none none none none).2 =
      (bulkLoop (gwItem noDb noDecode noWrite none none none) [reqOk1]).2 ++ []
        ++ Effect.warnFailedRequest reqBad (.valueError (S "starttime is after endtime"))
            :: (bulkLoop (gwItem noDb noDecode noWrite none none none) [reqOk2]).2 := by
  have h := bulk_single_failure_isolated noDb noDecode noWrite none none none
    [reqOk1] [reqOk2] reqBad (.valueError (S "starttime is after endtime")) [] rfl
    (by intro x hx; fin_cases hx <;> exact ⟨[], rfl⟩)
  exact h

/-- C10: In `PickClient.query`, a keyword whose value is a `UTCDateTime`
but whose key is neither `mintime` nor `maxtime` appends the local variable
`_q` without assigning it in that iteration: when no earlier iteration
assigned `_q` the call fails with `UnboundLocalError` (so the whole query
call errors), and when an earlier `mintime` iteration assigned `_q`, that
stale predicate is silently appended a second time instead of the unknown
key being rejected. -/
theorem pick_utc_unknown_key_unbound_or_stale (k : Str) (t u : Int)
    (rest : List (Str × PyVal))
    (h1 : k ≠ S "mintime") (h2 : k ≠ S "maxtime") :
    pickLoop ((k, .utc t) :: rest) none = .error .unboundLocalError
    ∧ pickQuery (S "picks_uw") (.inl (S "*")) ((k, .utc t) :: rest) =
        .error .unboundLocalError
    ∧ pickLoop ((S "mintime", .utc t) :: (k, .utc u) :: rest) none =
        (pickLoop rest (some ((S "timestamp >= ") ++ intToStr t))).map
          (fun tl => (((S "timestamp >= ") ++ intToStr t)
            :: ((S "timestamp >= ") ++ intToStr t) :: tl.1, tl.2)) := by
  have ha : pickLoop ((k, .utc t) :: rest) none = .error .unboundLocalError := by
    unfold pickLoop
    simp [h1, h2]
  refine ⟨ha, ?_, ?_⟩
  · unfold pickQuery
    rw [ha]
  · simp only [pickLoop]
    simp only [h1, h2, if_false, reduceIte]
    cases hx : pickLoop rest (some ((S "timestamp >= ") ++ intToStr t)) <;> rfl

/-- C10 witness: the theorem discharged at the unknown key `foo`: alone it
raises `UnboundLocalError`; after `mintime` the stale condition is appended
twice. -/
theorem pick_utc_unknown_key_unbound_or_stale_witness :
    pickLoop [(S "foo", PyVal.utc 0)] none = .error .unboundLocalError
    ∧ pickLoop [(S "mintime", PyVal.utc 0), (S "foo", PyVal.utc 1)] none =
        .ok ([S "timestamp >= 0", S "timestamp >= 0"], some (S "timestamp >= 0")) := by
  have h := pick_utc_unknown_key_unbound_or_stale (S "foo") 0 1 []
    (by decide) (by decide)
  exact ⟨h.1, h.2.2.trans (by rfl)⟩
